import Mathlib

/-
Verification development for the UpsWing-FlightPath adaptive assessment
engine.  The definitions below are a shallow embedding of the Python source:

  - app/infrastructure/adapters.py      (IRT kernel: information, MAP estimation)
  - app/domain/services/cat_service.py  (item selector, termination policy, scoring)
  - app/domain/entities.py              (session aggregate and its operations)
  - app/application/interactors.py      (StartSession / SubmitAnswer orchestrators)

Python floats are modelled as exact rationals; the transcendental helpers
np.exp and np.sqrt are abstract parameters, since every property proved here
is independent of their values.  A separate FP type models the non-finite
IEEE values (nan, inf) where a claim depends on them.
-/

namespace FlightPath

/-- Model of np.clip over the rationals: np.clip(x, lo, hi) returns lo when
x is below lo, hi when x is above hi, and x otherwise. -/
def clipQ (x lo hi : ℚ) : ℚ :=
  if x < lo then lo else if hi < x then hi else x

/-- Value object from app/domain/value_objects.py (AssessmentItem).  The
IRT parameters are surfaced exactly as by the difficulty / discrimination
properties; correct_answer models content.get with key correct_answer. -/
structure AssessmentItem where
  id : String
  skill_area : List String
  discrimination : ℚ
  difficulty : ℚ
  is_active : Bool
  correct_answer : Option String
deriving DecidableEq

/-- The 2PL success probability from the kernel: z = a * (theta - b) clipped
to [-30, 30], then the numerically stable branch on z >= 0 as written in
IRTServiceAdapter.calculate_information and _map_estimation. -/
def prob2PL (e : ℚ → ℚ) (a b theta : ℚ) : ℚ :=
  let z := clipQ (a * (theta - b)) (-30) 30
  if 0 ≤ z then 1 / (1 + e (-z)) else e z / (1 + e z)

/-- IRTServiceAdapter.calculate_information: Fisher information for the 2PL
model, a^2 * p * (1 - p), floored at 0 by the final max(0.0, information). -/
def calculate_information (e : ℚ → ℚ) (ability : ℚ) (item : AssessmentItem) : ℚ :=
  let discrimination := item.discrimination
  let difficulty := item.difficulty
  let prob := prob2PL e discrimination difficulty ability
  let p_times_q := prob * (1 - prob)
  max 0 (discrimination ^ 2 * p_times_q)

/-- Prior mean of the N(0,1) prior in _map_estimation. -/
def prior_mean : ℚ := 0

/-- Prior variance of the N(0,1) prior in _map_estimation. -/
def prior_variance : ℚ := 1

/-- The first and second derivative sums accumulated by the inner loop of
_map_estimation: for each zipped (response, (a, b)) pair, first_deriv gains
a * (response - p) and second_deriv loses a^2 * p * q. -/
def deriv_sums (e : ℚ → ℚ) (responses : List ℚ) (item_params : List (ℚ × ℚ))
    (theta : ℚ) : ℚ × ℚ :=
  (List.zip responses item_params).foldl
    (fun acc rp =>
      let r := rp.1
      let a := rp.2.1
      let b := rp.2.2
      let p := prob2PL e a b theta
      let q := 1 - p
      (acc.1 + a * (r - p), acc.2 - a ^ 2 * p * q))
    (0, 0)

/-- The Newton-Raphson loop of _map_estimation (for iteration in range(50)):
stop when the total second derivative is non-negative, otherwise step,
clip the new theta to [-10, 10], and stop early when the step is below 1e-6. -/
def newton_loop (e : ℚ → ℚ) (responses : List ℚ) (item_params : List (ℚ × ℚ)) :
    Nat → ℚ → ℚ
  | 0, theta => theta
  | Nat.succ fuel, theta =>
    let ds := deriv_sums e responses item_params theta
    let prior_first_deriv := -(theta - prior_mean) / prior_variance
    let prior_second_deriv := -1 / prior_variance
    let total_first_deriv := ds.1 + prior_first_deriv
    let total_second_deriv := ds.2 + prior_second_deriv
    if 0 ≤ total_second_deriv then theta
    else
      let theta_new := clipQ (theta - total_first_deriv / total_second_deriv) (-10) 10
      if |theta_new - theta| < 1 / 1000000 then theta_new
      else newton_loop e responses item_params fuel theta_new

/-- The second-derivative recomputation after the loop in _map_estimation
(the final for loop over zip(responses, item_params)). -/
def final_second_sum (e : ℚ → ℚ) (responses : List ℚ) (item_params : List (ℚ × ℚ))
    (theta : ℚ) : ℚ :=
  (List.zip responses item_params).foldl
    (fun acc rp =>
      let a := rp.2.1
      let b := rp.2.2
      let p := prob2PL e a b theta
      let q := 1 - p
      acc - a ^ 2 * p * q)
    0

/-- IRTServiceAdapter._map_estimation: MAP estimation by Newton-Raphson,
returning (theta, standard_error).  np.exp and np.sqrt are the abstract
parameters e and sqrt. -/
def map_estimation (e sqrt : ℚ → ℚ) (responses : List ℚ)
    (item_params : List (ℚ × ℚ)) : ℚ × ℚ :=
  let theta := newton_loop e responses item_params 50 prior_mean
  let final_second_deriv := final_second_sum e responses item_params theta + -1 / prior_variance
  let information := -final_second_deriv
  let standard_error :=
    if 0 < information then clipQ (1 / sqrt information) (1 / 100) 2 else 2
  (theta, standard_error)

/-- The filter in CATService.select_next_question: an item survives when
some configured skill is a member of its skill_area list, its id is not
among the used ids, and it is active. -/
def filtered_items (skill_areas used_item_ids : List String)
    (available_items : List AssessmentItem) : List AssessmentItem :=
  available_items.filter fun item =>
    (skill_areas.any fun skill => item.skill_area.contains skill)
      && !(used_item_ids.contains item.id)
      && item.is_active

/-- The best-item scan of CATService.select_next_question: walk the filtered
list keeping the first item whose information strictly exceeds the running
maximum (which starts at -1 with best = none). -/
def select_go (e : ℚ → ℚ) (ability : ℚ) :
    List AssessmentItem → Option AssessmentItem → ℚ → Option AssessmentItem
  | [], best, _ => best
  | item :: rest, best, max_information =>
    let info := calculate_information e ability item
    if max_information < info then select_go e ability rest (some item) info
    else select_go e ability rest best max_information

/-- CATService.select_next_question: filter, then return None when the
filtered list is empty, otherwise the first strict-maximum scan. -/
def select_next_question (e : ℚ → ℚ) (ability : ℚ)
    (skill_areas used_item_ids : List String)
    (available_items : List AssessmentItem) : Option AssessmentItem :=
  let filtered := filtered_items skill_areas used_item_ids available_items
  if filtered.isEmpty then none
  else select_go e ability filtered none (-1)

/-- A concrete active item used to exhibit the empty-skill-area behaviour. -/
def c1_item : AssessmentItem :=
  { id := "item-1", skill_area := ["reading"], discrimination := 1,
    difficulty := 0, is_active := true, correct_answer := some "b" }

-- Basic facts about clipQ.

theorem clipQ_mem (x lo hi : ℚ) (h : lo ≤ hi) :
    lo ≤ clipQ x lo hi ∧ clipQ x lo hi ≤ hi := by
  unfold clipQ
  split
  · exact ⟨le_refl lo, h⟩
  · split
    · exact ⟨h, le_refl hi⟩
    · next h1 h2 => exact ⟨le_of_not_lt h1, le_of_not_lt h2⟩

theorem calculate_information_nonneg (e : ℚ → ℚ) (ability : ℚ)
    (item : AssessmentItem) : 0 ≤ calculate_information e ability item := by
  unfold calculate_information
  exact le_max_left _ _

theorem newton_loop_mem (e : ℚ → ℚ) (responses : List ℚ)
    (item_params : List (ℚ × ℚ)) (fuel : Nat) (theta : ℚ)
    (h : -10 ≤ theta ∧ theta ≤ 10) :
    -10 ≤ newton_loop e responses item_params fuel theta ∧
      newton_loop e responses item_params fuel theta ≤ 10 := by
  induction fuel generalizing theta with
  | zero => exact h
  | succ n ih =>
    rw [newton_loop]
    split
    · exact h
    · dsimp only
      split
      · exact clipQ_mem _ _ _ (by norm_num)
      · exact ih _ (clipQ_mem _ _ _ (by norm_num))

/-- C1: with an empty skill-area set, the filter clause `any(skill in
item.skill_area for skill in skill_areas)` evaluates to False for every
item, so select_next_question returns none even when the pool holds an
active, unseen item.  This contradicts the spec, which requires the
skill-area clause to be skipped when the set is empty (the spec itself
flags the source behaviour as a bug in section 9). -/
theorem c1_empty_skill_areas_selects_none (e : ℚ → ℚ) (ability : ℚ) :
    select_next_question e ability [] [] [c1_item] = none := by
  rfl

/-- C2 (with I8): the MAP estimator of _map_estimation always returns a
theta in [-10, 10] (the update clip, starting from the prior mean 0) and a
standard error in [0.01, 2.0] (the SE clip, or the 2.0 fallback), for every
model of np.exp and np.sqrt and all inputs; moreover the logit z used by
the kernel is always confined to [-30, 30] by its clip. -/
theorem c2_map_estimation_clipped (e sqrt : ℚ → ℚ) (responses : List ℚ)
    (item_params : List (ℚ × ℚ)) :
    (-10 ≤ (map_estimation e sqrt responses item_params).1 ∧
      (map_estimation e sqrt responses item_params).1 ≤ 10) ∧
    (1 / 100 ≤ (map_estimation e sqrt responses item_params).2 ∧
      (map_estimation e sqrt responses item_params).2 ≤ 2) ∧
    (∀ a b theta : ℚ,
      -30 ≤ clipQ (a * (theta - b)) (-30) 30 ∧
        clipQ (a * (theta - b)) (-30) 30 ≤ 30) := by
  refine ⟨?_, ?_, ?_⟩
  · unfold map_estimation
    dsimp only
    exact newton_loop_mem e responses item_params 50 prior_mean
      (by unfold prior_mean; norm_num)
  · unfold map_estimation
    dsimp only
    split
    · exact clipQ_mem _ _ _ (by norm_num)
    · norm_num
  · intro a b theta
    exact clipQ_mem _ _ _ (by norm_num)

-- Helper lemmas for the selector scan.

theorem select_go_some_of_best_some (e : ℚ → ℚ) (ability : ℚ) :
    ∀ (l : List AssessmentItem) (b : AssessmentItem) (m : ℚ),
      ∃ it, select_go e ability l (some b) m = some it := by
  intro l
  induction l with
  | nil => intro b m; exact ⟨b, rfl⟩
  | cons x rest ih =>
    intro b m
    rw [select_go]
    split
    · exact ih x _
    · exact ih b m

theorem select_go_max (e : ℚ → ℚ) (ability : ℚ) :
    ∀ (l : List AssessmentItem) (b : AssessmentItem) (m : ℚ) (it : AssessmentItem),
      select_go e ability l (some b) m = some it →
      m = calculate_information e ability b →
      (∀ x ∈ l, calculate_information e ability x ≤ calculate_information e ability it) ∧
        m ≤ calculate_information e ability it := by
  intro l
  induction l with
  | nil =>
    intro b m it hsel hm
    simp only [select_go] at hsel
    cases hsel
    exact ⟨(by intro x hx; cases hx), le_of_eq hm⟩
  | cons x rest ih =>
    intro b m it hsel hm
    rw [select_go] at hsel
    split at hsel
    · next hlt =>
      obtain ⟨hall, hle⟩ := ih x _ it hsel rfl
      refine ⟨?_, le_trans (le_of_lt (hm ▸ hlt)) hle⟩
      intro y hy
      rcases List.mem_cons.mp hy with h | h
      · exact h ▸ hle
      · exact hall y h
    · next hnlt =>
      obtain ⟨hall, hle⟩ := ih b m it hsel hm
      refine ⟨?_, hle⟩
      intro y hy
      rcases List.mem_cons.mp hy with h | h
      · exact h ▸ le_trans (le_of_not_lt hnlt) hle
      · exact hall y h

theorem select_go_first (e : ℚ → ℚ) (ability : ℚ) :
    ∀ (l : List AssessmentItem) (b : AssessmentItem) (m : ℚ) (it : AssessmentItem),
      select_go e ability l (some b) m = some it →
      m = calculate_information e ability b →
      (it = b ∧ ∀ x ∈ l, calculate_information e ability x ≤ m) ∨
        (∃ l1 l2, l = l1 ++ it :: l2 ∧
          (∀ x ∈ l1, calculate_information e ability x < calculate_information e ability it) ∧
          m < calculate_information e ability it) := by
  intro l
  induction l with
  | nil =>
    intro b m it hsel _
    simp only [select_go] at hsel
    cases hsel
    exact Or.inl ⟨rfl, (by intro x hx; cases hx)⟩
  | cons x rest ih =>
    intro b m it hsel hm
    rw [select_go] at hsel
    split at hsel
    · next hlt =>
      rcases ih x _ it hsel rfl with ⟨heq, hall⟩ | ⟨l1, l2, hsplit, hlt1, hltm⟩
      · refine Or.inr ⟨[], rest, ?_, ?_, ?_⟩
        · rw [heq]; rfl
        · intro y hy; cases hy
        · exact heq ▸ hlt
      · refine Or.inr ⟨x :: l1, l2, by rw [hsplit]; rfl, ?_, lt_trans hlt hltm⟩
        intro y hy
        rcases List.mem_cons.mp hy with h | h
        · exact h ▸ hltm
        · exact hlt1 y h
    · next hnlt =>
      rcases ih b m it hsel hm with ⟨heq, hall⟩ | ⟨l1, l2, hsplit, hlt1, hltm⟩
      · refine Or.inl ⟨heq, ?_⟩
        intro y hy
        rcases List.mem_cons.mp hy with h | h
        · exact h ▸ le_of_not_lt hnlt
        · exact hall y h
      · refine Or.inr ⟨x :: l1, l2, by rw [hsplit]; rfl, ?_, hltm⟩
        intro y hy
        rcases List.mem_cons.mp hy with h | h
        · exact h ▸ lt_of_le_of_lt (le_of_not_lt hnlt) hltm
        · exact hlt1 y h

theorem neg_one_lt_info (e : ℚ → ℚ) (ability : ℚ) (item : AssessmentItem) :
    (-1 : ℚ) < calculate_information e ability item :=
  lt_of_lt_of_le (by norm_num) (calculate_information_nonneg e ability item)

/-- C6: whenever the selector returns an item, that item survives the
filter, its kernel information is at least that of every filtered
candidate, and it is the first-encountered among maximally informative
survivors; and the selector returns none exactly when no item survives. -/
theorem c6_selector_max_info (e : ℚ → ℚ) (ability : ℚ)
    (skill_areas used_item_ids : List String)
    (available_items : List AssessmentItem) :
    (select_next_question e ability skill_areas used_item_ids available_items = none ↔
      filtered_items skill_areas used_item_ids available_items = []) ∧
    (∀ it, select_next_question e ability skill_areas used_item_ids available_items = some it →
      it ∈ filtered_items skill_areas used_item_ids available_items ∧
      (∀ x ∈ filtered_items skill_areas used_item_ids available_items,
        calculate_information e ability x ≤ calculate_information e ability it) ∧
      ∃ l1 l2, filtered_items skill_areas used_item_ids available_items = l1 ++ it :: l2 ∧
        ∀ x ∈ l1, calculate_information e ability x < calculate_information e ability it) := by
  unfold select_next_question
  dsimp only
  constructor
  · constructor
    · intro hnone
      by_contra hne
      rw [if_neg (by simpa [List.isEmpty_iff] using hne)] at hnone
      match hfe : filtered_items skill_areas used_item_ids available_items, hne with
      | x :: rest, _ =>
        rw [hfe] at hnone
        rw [select_go] at hnone
        rw [if_pos (neg_one_lt_info e ability x)] at hnone
        obtain ⟨it, hit⟩ := select_go_some_of_best_some e ability rest x
          (calculate_information e ability x)
        rw [hit] at hnone
        cases hnone
    · intro hempty
      rw [if_pos (by simp [hempty])]
  · intro it hsel
    by_cases hemp : (filtered_items skill_areas used_item_ids available_items).isEmpty
    · rw [if_pos hemp] at hsel; cases hsel
    · rw [if_neg hemp] at hsel
      match hfe : filtered_items skill_areas used_item_ids available_items,
          List.isEmpty_iff.not.mp hemp with
      | x :: rest, _ =>
        rw [hfe] at hsel
        rw [select_go] at hsel
        rw [if_pos (neg_one_lt_info e ability x)] at hsel
        obtain ⟨hall, hle⟩ := select_go_max e ability rest x _ it hsel rfl
        have hmem_and_first :
            it ∈ x :: rest ∧
            ∃ l1 l2, x :: rest = l1 ++ it :: l2 ∧
              ∀ y ∈ l1, calculate_information e ability y < calculate_information e ability it := by
          rcases select_go_first e ability rest x _ it hsel rfl with ⟨heq, _⟩ |
            ⟨l1, l2, hsplit, hlt1, hltm⟩
          · exact ⟨heq ▸ List.mem_cons_self x rest,
              [], rest, by rw [heq]; rfl, by intro y hy; cases hy⟩
          · refine ⟨?_, x :: l1, l2, by rw [hsplit]; rfl, ?_⟩
            · rw [hsplit]
              exact List.mem_cons_of_mem x (List.mem_append_right l1 (List.mem_cons_self it l2))
            · intro y hy
              rcases List.mem_cons.mp hy with h | h
              · exact h ▸ hltm
              · exact hlt1 y h
        refine ⟨hmem_and_first.1, ?_, hmem_and_first.2⟩
        intro y hy
        rcases List.mem_cons.mp hy with h | h
        · exact h ▸ hle
        · exact hall y h

-- Domain entities (app/domain/entities.py).

/-- Session status constants from entities.py. -/
inductive SessionStatus
  | IN_PROGRESS
  | COMPLETED
  | CANCELLED
  | EXPIRED
deriving DecidableEq

/-- Assignment status constants from entities.py. -/
inductive AssignmentStatus
  | PENDING
  | IN_PROGRESS
  | COMPLETED
  | EXPIRED
deriving DecidableEq

/-- Error kinds for the ValueError raises in the domain entities, following
the taxonomy of the spec: invalidState for state-guard failures, notFound
for a missing pending response, invalidInput for bad payloads or missing
answers.  Timestamps are modelled as integers. -/
inductive DomainError
  | invalidState
  | notFound
  | invalidInput
deriving DecidableEq

/-- AssessmentResponse entity.  response_data is modelled by its only
consulted key: selected_option (absent key = none). -/
structure AssessmentResponse where
  id : String
  item_id : String
  selected_option : Option String
  is_correct : Option Bool
  raw_score : Option ℚ
  presented_at : ℤ
  submitted_at : Option ℤ
  time_taken : Option ℤ
deriving DecidableEq

/-- AssessmentResponse.has_valid_response: bool(response.get with key
selected_option); an absent key or an empty string is falsy. -/
def has_valid_response (response_data : Option String) : Bool :=
  match response_data with
  | some s => !s.isEmpty
  | none => false

/-- AssessmentResponse.calculate_score: the raw score when present,
otherwise 1.0 for a truthy is_correct and 0.0 otherwise. -/
def AssessmentResponse.calculate_score (r : AssessmentResponse) : ℚ :=
  match r.raw_score with
  | some q => q
  | none => if r.is_correct = some true then 1 else 0

/-- AssessmentResponse.is_pending: submitted_at is null. -/
def AssessmentResponse.is_pending (r : AssessmentResponse) : Bool :=
  r.submitted_at.isNone

/-- AssessmentSession entity. -/
structure AssessmentSession where
  id : String
  current_ability : Option ℚ
  standard_error : Option ℚ
  questions_answered : ℤ
  status : SessionStatus
  started_at : ℤ
  completed_at : Option ℤ
  expires_at : ℤ
  responses : List AssessmentResponse
deriving DecidableEq

/-- AssessmentSession.is_time_expired: now is strictly past expires_at. -/
def AssessmentSession.is_time_expired (s : AssessmentSession) (now : ℤ) : Bool :=
  decide (s.expires_at < now)

/-- AssessmentSession.can_accept_answer: in progress and not time-expired. -/
def AssessmentSession.can_accept_answer (s : AssessmentSession) (now : ℤ) : Bool :=
  if s.status ≠ SessionStatus.IN_PROGRESS then false
  else if s.is_time_expired now then false
  else true

/-- AssessmentSession.has_reached_max_questions. -/
def AssessmentSession.has_reached_max_questions (s : AssessmentSession)
    (max_questions : ℤ) : Bool :=
  decide (max_questions ≤ s.questions_answered)

/-- AssessmentSession.has_sufficient_precision: standard error present and
at or below the threshold. -/
def AssessmentSession.has_sufficient_precision (s : AssessmentSession)
    (min_standard_error : ℚ) : Bool :=
  match s.standard_error with
  | none => false
  | some se => decide (se ≤ min_standard_error)

/-- AssessmentSession.has_reached_min_questions. -/
def AssessmentSession.has_reached_min_questions (s : AssessmentSession)
    (min_questions : ℤ) : Bool :=
  decide (min_questions ≤ s.questions_answered)

/-- AssessmentSession.get_pending_response: the first response whose
submitted_at is null. -/
def AssessmentSession.get_pending_response (s : AssessmentSession) :
    Option AssessmentResponse :=
  s.responses.find? (·.is_pending)

/-- AssessmentSession.get_submitted_responses. -/
def AssessmentSession.get_submitted_responses (s : AssessmentSession) :
    List AssessmentResponse :=
  s.responses.filter fun r => !r.is_pending

/-- AssessmentSession.get_answered_item_ids: item ids of all responses. -/
def AssessmentSession.get_answered_item_ids (s : AssessmentSession) : List String :=
  s.responses.map (·.item_id)

/-- AssignedAssessment aggregate root. -/
structure AssignedAssessment where
  id : String
  template_id : String
  due_at : Option ℤ
  status : AssignmentStatus
  session : Option AssessmentSession
deriving DecidableEq

/-- AssignedAssessment.can_start: PENDING and not past due. -/
def AssignedAssessment.can_start (a : AssignedAssessment) (now : ℤ) : Bool :=
  if a.status ≠ AssignmentStatus.PENDING then false
  else if (match a.due_at with
    | some d => decide (d < now)
    | none => false) then false
  else true

/-- AssignedAssessment.has_active_session: a session exists with status
IN_PROGRESS. -/
def AssignedAssessment.has_active_session (a : AssignedAssessment) : Bool :=
  match a.session with
  | some s => decide (s.status = SessionStatus.IN_PROGRESS)
  | none => false

/-- AssignedAssessment.start_session: guard on can_start and on an already
active session, then create a fresh IN_PROGRESS session and mark the
assignment IN_PROGRESS. -/
def AssignedAssessment.start_session (a : AssignedAssessment) (session_id : String)
    (now expires_at : ℤ) (starting_ability : ℚ) :
    Except DomainError (AssignedAssessment × AssessmentSession) :=
  if !(a.can_start now) then .error .invalidState
  else if a.has_active_session then .error .invalidState
  else
    let session : AssessmentSession :=
      { id := session_id, current_ability := some starting_ability,
        standard_error := none, questions_answered := 0,
        status := SessionStatus.IN_PROGRESS, started_at := now,
        completed_at := none, expires_at := expires_at, responses := [] }
    .ok ({ a with
            session := some session,
            status := AssignmentStatus.IN_PROGRESS }, session)

/-- AssignedAssessment.present_question: append a fresh pending response to
the active session. -/
def AssignedAssessment.present_question (a : AssignedAssessment)
    (response_id item_id : String) (now : ℤ) :
    Except DomainError (AssignedAssessment × AssessmentResponse) :=
  match a.session with
  | none => .error .invalidState
  | some s =>
    if s.status ≠ SessionStatus.IN_PROGRESS then .error .invalidState
    else
      let response : AssessmentResponse :=
        { id := response_id, item_id := item_id, selected_option := none,
          is_correct := none, raw_score := none, presented_at := now,
          submitted_at := none, time_taken := none }
      .ok ({ a with
              session := some { s with responses := s.responses ++ [response] } },
        response)

/-- Replace the first pending response in a list, modelling the in-place
mutation of the object returned by get_pending_response. -/
def set_first_pending : List AssessmentResponse → AssessmentResponse →
    List AssessmentResponse
  | [], _ => []
  | r :: rest, upd =>
    if r.is_pending then upd :: rest else r :: set_first_pending rest upd

/-- AssignedAssessment.submit_response: guard the session state, the
pending response and the payload, then finalize the pending response and
increment questions_answered. -/
def AssignedAssessment.submit_response (a : AssignedAssessment)
    (response_data : Option String) (is_correct : Bool) (score : ℚ)
    (time_taken : Option ℤ) (now : ℤ) :
    Except DomainError (AssignedAssessment × AssessmentResponse) :=
  match a.session with
  | none => .error .invalidState
  | some s =>
    if !(s.can_accept_answer now) then .error .invalidState
    else match s.get_pending_response with
      | none => .error .notFound
      | some pending =>
        if !(has_valid_response response_data) then .error .invalidInput
        else
          let updated : AssessmentResponse :=
            { pending with
                selected_option := response_data,
                is_correct := some is_correct, raw_score := some score,
                time_taken := time_taken, submitted_at := some now }
          .ok ({ a with
                  session := some { s with
                    responses := set_first_pending s.responses updated,
                    questions_answered := s.questions_answered + 1 } }, updated)

/-- AssignedAssessment.update_ability_estimate.  A zero or absent standard
error is stored as null by the falsy check in the source. -/
def AssignedAssessment.update_ability_estimate (a : AssignedAssessment)
    (new_ability : ℚ) (new_standard_error : Option ℚ) :
    Except DomainError AssignedAssessment :=
  match a.session with
  | none => .error .invalidState
  | some s =>
    .ok { a with
            session := some { s with
              current_ability := some new_ability,
              standard_error := match new_standard_error with
                | some v => if v = 0 then none else some v
                | none => none } }

/-- AssignedAssessment.complete_assessment: mark session and assignment
COMPLETED and stamp completed_at. -/
def AssignedAssessment.complete_assessment (a : AssignedAssessment) (now : ℤ) :
    Except DomainError AssignedAssessment :=
  match a.session with
  | none => .error .invalidState
  | some s =>
    .ok { a with
            status := AssignmentStatus.COMPLETED,
            session := some { s with
              status := SessionStatus.COMPLETED,
              completed_at := some now } }

/-- AssignedAssessment.cancel_session: set only the session status to
CANCELLED; the assignment status is untouched. -/
def AssignedAssessment.cancel_session (a : AssignedAssessment) :
    Except DomainError AssignedAssessment :=
  match a.session with
  | none => .error .invalidState
  | some s =>
    .ok { a with session := some { s with status := SessionStatus.CANCELLED } }

-- Configuration (app/domain/value_objects.py AssessmentConfig).

/-- The stopping_criterion sub-dict of adaptive_params; only the
standard_error key is read. -/
structure StoppingCriterion where
  standard_error : Option ℚ
deriving DecidableEq

/-- The adaptive_params dict: each key may be absent. -/
structure AdaptiveParams where
  starting_ability : Option ℚ
  min_questions : Option ℤ
  max_questions : Option ℤ
  stopping_criterion : Option StoppingCriterion
  skill_areas : Option (List String)
deriving DecidableEq

/-- The general parameters dict; only time_limit_minutes is read. -/
structure GeneralParams where
  time_limit_minutes : Option ℤ
deriving DecidableEq

/-- AssessmentConfig value object; parameters and adaptive_params may be
null (or empty, which the source treats identically through falsiness). -/
structure AssessmentConfig where
  parameters : Option GeneralParams
  adaptive_params : Option AdaptiveParams
deriving DecidableEq

/-- AssessmentConfig.min_questions property with its default 5. -/
def AssessmentConfig.min_questions (c : AssessmentConfig) : ℤ :=
  match c.adaptive_params with
  | some p => p.min_questions.getD 5
  | none => 5

/-- AssessmentConfig.max_questions property with its default 25. -/
def AssessmentConfig.max_questions (c : AssessmentConfig) : ℤ :=
  match c.adaptive_params with
  | some p => p.max_questions.getD 25
  | none => 25

/-- AssessmentConfig.stopping_criterion property with its default dict. -/
def AssessmentConfig.stopping_criterion (c : AssessmentConfig) : StoppingCriterion :=
  match c.adaptive_params with
  | some p => p.stopping_criterion.getD { standard_error := some (3 / 10) }
  | none => { standard_error := some (3 / 10) }

/-- AssessmentConfig.get_stopping_standard_error with its default 0.3. -/
def AssessmentConfig.get_stopping_standard_error (c : AssessmentConfig) : ℚ :=
  c.stopping_criterion.standard_error.getD (3 / 10)

/-- AssessmentConfig.starting_ability property with its default 0.0. -/
def AssessmentConfig.starting_ability (c : AssessmentConfig) : ℚ :=
  match c.adaptive_params with
  | some p => p.starting_ability.getD 0
  | none => 0

/-- AssessmentConfig.skill_areas property with its default empty list. -/
def AssessmentConfig.skill_areas (c : AssessmentConfig) : List String :=
  match c.adaptive_params with
  | some p => p.skill_areas.getD []
  | none => []

/-- The time-limit read in StartPlacementTestInteractor
(config.parameters.get with default 120, or 120 when parameters is null). -/
def AssessmentConfig.get_time_limit (c : AssessmentConfig) : ℤ :=
  match c.parameters with
  | some p => p.time_limit_minutes.getD 120
  | none => 120

/-- CATService.check_termination_criteria: read min_questions,
max_questions and the stopping standard error from adaptive_params with
their defaults, then the three-step policy. -/
def check_termination_criteria (session : AssessmentSession)
    (config : AssessmentConfig) : Bool :=
  let min_questions : ℤ :=
    match config.adaptive_params with
    | some p => p.min_questions.getD 5
    | none => 5
  let max_questions : ℤ :=
    match config.adaptive_params with
    | some p => p.max_questions.getD 25
    | none => 25
  let stopping_criterion : StoppingCriterion :=
    match config.adaptive_params with
    | some p => p.stopping_criterion.getD { standard_error := some (3 / 10) }
    | none => { standard_error := some (3 / 10) }
  let stopping_se : ℚ := stopping_criterion.standard_error.getD (3 / 10)
  if !(session.has_reached_min_questions min_questions) then false
  else if session.has_reached_max_questions max_questions then true
  else if session.has_sufficient_precision stopping_se then true
  else false

/-- The termination policy exactly as the spec states it: continue below
min_questions, terminate at or above max_questions, terminate when a
non-null standard error is at or below the stopping threshold, otherwise
continue. -/
def spec_termination_policy (questions_answered : ℤ) (se : Option ℚ)
    (min_questions max_questions : ℤ) (stopping_se : ℚ) : Bool :=
  if questions_answered < min_questions then false
  else if max_questions ≤ questions_answered then true
  else match se with
    | some v => if v ≤ stopping_se then true else false
    | none => false

/-- A config with both parameter dicts absent, exercising every default. -/
def empty_config : AssessmentConfig :=
  { parameters := none, adaptive_params := none }

theorem termination_chain_eq (session : AssessmentSession) (m M : ℤ) (t : ℚ) :
    (if !(session.has_reached_min_questions m) then false
     else if session.has_reached_max_questions M then true
     else if session.has_sufficient_precision t then true
     else false) =
    spec_termination_policy session.questions_answered session.standard_error m M t := by
  unfold AssessmentSession.has_reached_min_questions
    AssessmentSession.has_reached_max_questions
    AssessmentSession.has_sufficient_precision spec_termination_policy
  by_cases h1 : m ≤ session.questions_answered
  · by_cases h2 : M ≤ session.questions_answered
    · simp [h1, h2, not_lt.mpr h1]
    · cases hse : session.standard_error with
      | none => simp [h1, h2, not_lt.mpr h1, hse]
      | some v =>
        by_cases h3 : v ≤ t
        · simp [h1, h2, h3, not_lt.mpr h1, hse]
        · simp [h1, h2, h3, not_lt.mpr h1, hse]
  · simp [h1, not_le.mp h1]

/-- C4: the termination check is exactly the spec policy, evaluated at the
config getters (which carry the defaults 5, 25 and 0.3); a config with no
adaptive_params yields exactly those defaults. -/
theorem c4_termination_policy :
    (∀ (session : AssessmentSession) (config : AssessmentConfig),
      check_termination_criteria session config =
        spec_termination_policy session.questions_answered session.standard_error
          config.min_questions config.max_questions
          config.get_stopping_standard_error) ∧
    (empty_config.min_questions = 5 ∧ empty_config.max_questions = 25 ∧
      empty_config.get_stopping_standard_error = 3 / 10) := by
  constructor
  · intro session config
    rw [← termination_chain_eq session config.min_questions config.max_questions
      config.get_stopping_standard_error]
    unfold check_termination_criteria AssessmentConfig.min_questions
      AssessmentConfig.max_questions AssessmentConfig.get_stopping_standard_error
      AssessmentConfig.stopping_criterion
    cases config.adaptive_params <;> rfl
  · exact ⟨rfl, rfl, rfl⟩

/-- C5: submit_response fails invalidState when the session is not
IN_PROGRESS (terminal finality) or time-expired, notFound when no pending
response exists, invalidInput when the payload carries no selected option,
and otherwise finalizes the pending response (submitted_at = now, score and
time stored) and increments questions_answered by exactly one. -/
theorem c5_submit_response_contract :
    (∀ (a : AssignedAssessment) (s : AssessmentSession) (rd : Option String)
      (ic : Bool) (sc : ℚ) (tt : Option ℤ) (now : ℤ),
      a.session = some s → s.status ≠ SessionStatus.IN_PROGRESS →
      a.submit_response rd ic sc tt now = .error .invalidState) ∧
    (∀ (a : AssignedAssessment) (s : AssessmentSession) (rd : Option String)
      (ic : Bool) (sc : ℚ) (tt : Option ℤ) (now : ℤ),
      a.session = some s → s.expires_at < now →
      a.submit_response rd ic sc tt now = .error .invalidState) ∧
    (∀ (a : AssignedAssessment) (s : AssessmentSession) (rd : Option String)
      (ic : Bool) (sc : ℚ) (tt : Option ℤ) (now : ℤ),
      a.session = some s → s.can_accept_answer now = true →
      s.get_pending_response = none →
      a.submit_response rd ic sc tt now = .error .notFound) ∧
    (∀ (a : AssignedAssessment) (s : AssessmentSession) (p : AssessmentResponse)
      (ic : Bool) (sc : ℚ) (tt : Option ℤ) (now : ℤ),
      a.session = some s → s.can_accept_answer now = true →
      s.get_pending_response = some p →
      a.submit_response none ic sc tt now = .error .invalidInput) ∧
    (∀ (a : AssignedAssessment) (s : AssessmentSession) (rd : Option String)
      (ic : Bool) (sc : ℚ) (tt : Option ℤ) (now : ℤ),
      a.session = some s → s.can_accept_answer now = true →
      (s.get_pending_response).isSome → has_valid_response rd = true →
      ∃ a2 r2, a.submit_response rd ic sc tt now = .ok (a2, r2) ∧
        r2.submitted_at = some now ∧ r2.raw_score = some sc ∧
        r2.time_taken = tt ∧
        ∃ s2, a2.session = some s2 ∧
          s2.questions_answered = s.questions_answered + 1) := by
  refine ⟨?_, ?_, ?_, ?_, ?_⟩
  · intro a s rd ic sc tt now hs hstat
    have hcaa : s.can_accept_answer now = false := by
      unfold AssessmentSession.can_accept_answer
      rw [if_pos hstat]
    simp [AssignedAssessment.submit_response, hs, hcaa]
  · intro a s rd ic sc tt now hs hexp
    have hcaa : s.can_accept_answer now = false := by
      simp [AssessmentSession.can_accept_answer, AssessmentSession.is_time_expired, hexp]
    simp [AssignedAssessment.submit_response, hs, hcaa]
  · intro a s rd ic sc tt now hs hacc hpend
    simp [AssignedAssessment.submit_response, hs, hacc, hpend]
  · intro a s p ic sc tt now hs hacc hpend
    simp [AssignedAssessment.submit_response, hs, hacc, hpend, has_valid_response]
  · intro a s rd ic sc tt now hs hacc hpend hvalid
    obtain ⟨pending, hp⟩ := Option.isSome_iff_exists.mp hpend
    simp only [AssignedAssessment.submit_response, hs, hacc, hp, hvalid, Bool.not_true,
      Bool.false_eq_true, if_false]
    exact ⟨_, _, rfl, rfl, rfl, rfl, _, rfl, rfl⟩

-- Catalog reads (app/infrastructure/persistence/repositories/sql_repositories.py)
-- and the remaining kernel entry points used by the orchestrators.

/-- The item catalog backing the repository for one template. -/
structure Catalog where
  items : List AssessmentItem
deriving DecidableEq

/-- SQLAssessmentItemRepository.get_item: find the item by id. -/
def get_item (cat : Catalog) (item_id : String) : Option AssessmentItem :=
  cat.items.find? fun it => it.id == item_id

/-- SQLAssessmentItemRepository.get_items_by_skill_areas: active items whose
skill_area list overlaps the requested skill areas (JSON_OVERLAPS), with the
excluded ids removed. -/
def get_items_by_skill_areas (cat : Catalog)
    (skill_areas exclude_item_ids : List String) : List AssessmentItem :=
  cat.items.filter fun it =>
    (it.skill_area.any fun sk => skill_areas.contains sk)
      && it.is_active && !(exclude_item_ids.contains it.id)

/-- The previous-item rebuild in SubmitAnswerInteractor.execute: look every
previously answered item up in the catalog and keep only the ones found. -/
def build_previous_items (cat : Catalog) (responses : List AssessmentResponse) :
    List AssessmentItem :=
  responses.filterMap fun r => get_item cat r.item_id

/-- IRTServiceAdapter.estimate_ability_with_item: pair responses with items
positionally via zip, append the current response and item, and run MAP. -/
def estimate_ability_with_item (e sqrt : ℚ → ℚ)
    (responses : List AssessmentResponse) (items : List AssessmentItem)
    (current_item : AssessmentItem) (current_response_score : ℚ) : ℚ × ℚ :=
  let pairs := responses.zip items
  let response_data := (pairs.map fun pr => pr.1.calculate_score)
      ++ [current_response_score]
  let item_params := (pairs.map fun pr => (pr.2.discrimination, pr.2.difficulty))
      ++ [(current_item.discrimination, current_item.difficulty)]
  map_estimation e sqrt response_data item_params

/-- CATService.score_response: case-insensitive, whitespace-trimmed string
equality of the correct answer and the selected option; a missing side is a
ValueError (InvalidInput). -/
def score_response (item : AssessmentItem) (response_data : Option String) :
    Except DomainError (ℚ × Bool) :=
  match item.correct_answer, response_data with
  | some correct_answer, some student_answer =>
    let correct_str := correct_answer.trim.toLower
    let student_str := student_answer.trim.toLower
    let is_correct := correct_str == student_str
    .ok (if is_correct then 1 else 0, is_correct)
  | _, _ => .error .invalidInput

theorem zip_take_length {α β : Type} : ∀ (l1 : List α) (l2 : List β),
    l1.zip l2 = (l1.take l2.length).zip l2 := by
  intro l1
  induction l1 with
  | nil => intro l2; simp
  | cons a rest ih =>
    intro l2
    cases l2 with
    | nil => simp
    | cons b rest2 =>
      simp only [List.length_cons, List.take_succ_cons, List.zip_cons_cons]
      rw [ih rest2]

/-- C9: estimate_ability_with_item performs no length check: responses and
items are paired positionally by zip, so surplus responses beyond the item
list are silently dropped (the estimate equals the one on the truncated
response list, with no failure possible: the estimator is a total
function); and the item rebuild in SubmitAnswer silently skips responses
whose item is absent from the catalog. -/
theorem c9_zip_truncation (e s : ℚ → ℚ) (cat : Catalog) :
    (∀ (responses : List AssessmentResponse) (items : List AssessmentItem)
      (current_item : AssessmentItem) (score : ℚ),
      items.length ≤ responses.length →
      estimate_ability_with_item e s responses items current_item score =
        estimate_ability_with_item e s (responses.take items.length) items
          current_item score) ∧
    (∀ (r : AssessmentResponse) (rest : List AssessmentResponse),
      get_item cat r.item_id = none →
      build_previous_items cat (r :: rest) = build_previous_items cat rest) := by
  constructor
  · intro responses items current_item score _
    unfold estimate_ability_with_item
    rw [zip_take_length responses items]
  · intro r rest h
    simp [build_previous_items, List.filterMap_cons, h]

-- Concrete fixtures used by the witness theorems.

/-- A trivial model of np.exp (and np.sqrt) for concrete evaluation; the
theorems hold for every such model, so any total function will do. -/
def const_one : ℚ → ℚ := fun _ => 1

/-- A high-discrimination active item. -/
def item_a : AssessmentItem :=
  { id := "item-a", skill_area := ["reading"], discrimination := 2,
    difficulty := 0, is_active := true, correct_answer := some "a" }

/-- A low-discrimination active item. -/
def item_b : AssessmentItem :=
  { id := "item-b", skill_area := ["reading"], discrimination := 1,
    difficulty := 0, is_active := true, correct_answer := some "b" }

/-- A catalog with no items. -/
def empty_catalog : Catalog := { items := [] }

/-- An in-progress session with no responses. -/
def base_session : AssessmentSession :=
  { id := "sess-1", current_ability := some 0, standard_error := none,
    questions_answered := 0, status := SessionStatus.IN_PROGRESS,
    started_at := 0, completed_at := none, expires_at := 100, responses := [] }

/-- A pending response fixture. -/
def pending_fixture : AssessmentResponse :=
  { id := "r-1", item_id := "item-a", selected_option := none,
    is_correct := none, raw_score := none, presented_at := 1,
    submitted_at := none, time_taken := none }

/-- A submitted response fixture pointing at an absent item. -/
def submitted_fixture : AssessmentResponse :=
  { id := "r-2", item_id := "item-gone", selected_option := some "b",
    is_correct := some true, raw_score := some 1, presented_at := 1,
    submitted_at := some 2, time_taken := some 10 }

/-- An assignment owning the given session. -/
def agg_with (s : AssessmentSession) : AssignedAssessment :=
  { id := "assign-1", template_id := "tpl-1", due_at := none,
    status := AssignmentStatus.IN_PROGRESS, session := some s }

/-- A COMPLETED session. -/
def s_completed : AssessmentSession :=
  { base_session with status := SessionStatus.COMPLETED }

/-- A session whose time limit is already past at now = 5. -/
def s_expired : AssessmentSession :=
  { base_session with expires_at := 3 }

/-- An in-progress session holding one pending response. -/
def s_with_pending : AssessmentSession :=
  { base_session with responses := [pending_fixture] }

theorem c5_submit_response_contract_witness :
    ((agg_with s_completed).submit_response (some "b") true 1 none 5 =
      .error .invalidState) ∧
    ((agg_with s_expired).submit_response (some "b") true 1 none 5 =
      .error .invalidState) ∧
    ((agg_with base_session).submit_response (some "b") true 1 none 5 =
      .error .notFound) ∧
    ((agg_with s_with_pending).submit_response none true 1 none 5 =
      .error .invalidInput) ∧
    (∃ a2 r2, (agg_with s_with_pending).submit_response (some "b") true 1 none 5 =
        .ok (a2, r2) ∧
      r2.submitted_at = some 5 ∧ r2.raw_score = some 1 ∧ r2.time_taken = none ∧
      ∃ s2, a2.session = some s2 ∧
        s2.questions_answered = s_with_pending.questions_answered + 1) :=
  ⟨c5_submit_response_contract.1 (agg_with s_completed) s_completed
      (some "b") true 1 none 5 rfl (by decide),
   c5_submit_response_contract.2.1 (agg_with s_expired) s_expired
      (some "b") true 1 none 5 rfl (by decide),
   c5_submit_response_contract.2.2.1 (agg_with base_session) base_session
      (some "b") true 1 none 5 rfl (by decide) rfl,
   c5_submit_response_contract.2.2.2.1 (agg_with s_with_pending) s_with_pending
      pending_fixture true 1 none 5 rfl (by decide) rfl,
   c5_submit_response_contract.2.2.2.2 (agg_with s_with_pending) s_with_pending
      (some "b") true 1 none 5 rfl (by decide) (by decide) (by decide)⟩

theorem c6_selector_max_info_witness :
    select_next_question const_one 0 ["reading"] [] [item_b, item_a] =
      some item_a ∧
    (item_a ∈ filtered_items ["reading"] [] [item_b, item_a] ∧
      (∀ x ∈ filtered_items ["reading"] [] [item_b, item_a],
        calculate_information const_one 0 x ≤
          calculate_information const_one 0 item_a) ∧
      ∃ l1 l2, filtered_items ["reading"] [] [item_b, item_a] =
          l1 ++ item_a :: l2 ∧
        ∀ x ∈ l1, calculate_information const_one 0 x <
          calculate_information const_one 0 item_a) := by
  have hsel : select_next_question const_one 0 ["reading"] [] [item_b, item_a] =
      some item_a := by
    norm_num [select_next_question, filtered_items, select_go,
      calculate_information, prob2PL, clipQ, const_one, item_a, item_b, max_def]
  exact ⟨hsel,
    (c6_selector_max_info const_one 0 ["reading"] [] [item_b, item_a]).2
      item_a hsel⟩

theorem c9_zip_truncation_witness :
    (([item_a].length ≤ [pending_fixture, submitted_fixture].length) ∧
      estimate_ability_with_item const_one const_one
          [pending_fixture, submitted_fixture] [item_a] item_a 1 =
        estimate_ability_with_item const_one const_one
          ([pending_fixture, submitted_fixture].take [item_a].length)
          [item_a] item_a 1) ∧
    (get_item empty_catalog submitted_fixture.item_id = none ∧
      build_previous_items empty_catalog [submitted_fixture, pending_fixture] =
        build_previous_items empty_catalog [pending_fixture]) :=
  ⟨⟨by decide,
    (c9_zip_truncation const_one const_one empty_catalog).1
      [pending_fixture, submitted_fixture] [item_a] item_a 1 (by decide)⟩,
   ⟨by decide,
    (c9_zip_truncation const_one const_one empty_catalog).2
      submitted_fixture [pending_fixture] (by decide)⟩⟩

-- Non-finite float behaviour (for the finiteness edge case of
-- IRTServiceAdapter.calculate_ability).

/-- IEEE float64 values as the kernel sees them: exact rationals for finite
values plus nan and the two infinities.  The special values propagate as in
IEEE arithmetic; finite arithmetic is exact (rounding and overflow of
finite intermediates are not modelled, as no claim depends on them). -/
inductive FP
  | fin (q : ℚ)
  | nan
  | inf
  | ninf
deriving DecidableEq

/-- IEEE addition on FP. -/
def FP.add : FP → FP → FP
  | nan, _ => nan
  | _, nan => nan
  | fin a, fin b => fin (a + b)
  | inf, ninf => nan
  | ninf, inf => nan
  | inf, _ => inf
  | _, inf => inf
  | ninf, _ => ninf
  | _, ninf => ninf

/-- IEEE subtraction on FP. -/
def FP.sub : FP → FP → FP
  | nan, _ => nan
  | _, nan => nan
  | fin a, fin b => fin (a - b)
  | inf, inf => nan
  | ninf, ninf => nan
  | inf, _ => inf
  | _, inf => ninf
  | ninf, _ => ninf
  | _, ninf => inf

/-- IEEE negation on FP. -/
def FP.neg : FP → FP
  | nan => nan
  | fin a => fin (-a)
  | inf => ninf
  | ninf => inf

/-- IEEE multiplication on FP. -/
def FP.mul : FP → FP → FP
  | nan, _ => nan
  | _, nan => nan
  | fin a, fin b => fin (a * b)
  | inf, inf => inf
  | inf, ninf => ninf
  | ninf, inf => ninf
  | ninf, ninf => inf
  | inf, fin b => if b = 0 then nan else if 0 < b then inf else ninf
  | fin a, inf => if a = 0 then nan else if 0 < a then inf else ninf
  | ninf, fin b => if b = 0 then nan else if 0 < b then ninf else inf
  | fin a, ninf => if a = 0 then nan else if 0 < a then ninf else inf

/-- IEEE division on FP (signed zero is not distinguished; the kernel never
divides by a finite zero because of its concavity guard). -/
def FP.div : FP → FP → FP
  | nan, _ => nan
  | _, nan => nan
  | fin a, fin b =>
    if b = 0 then (if a = 0 then nan else if 0 < a then inf else ninf)
    else fin (a / b)
  | inf, inf => nan
  | inf, ninf => nan
  | ninf, inf => nan
  | ninf, ninf => nan
  | inf, fin b => if 0 ≤ b then inf else ninf
  | ninf, fin b => if 0 ≤ b then ninf else inf
  | fin _, inf => fin 0
  | fin _, ninf => fin 0

/-- Python / numpy comparison x <= y: always False when nan is involved. -/
def FP.le : FP → FP → Bool
  | nan, _ => false
  | _, nan => false
  | fin a, fin b => decide (a ≤ b)
  | ninf, _ => true
  | _, inf => true
  | _, _ => false

/-- Python / numpy comparison x < y: always False when nan is involved. -/
def FP.lt : FP → FP → Bool
  | nan, _ => false
  | _, nan => false
  | fin a, fin b => decide (a < b)
  | inf, _ => false
  | ninf, ninf => false
  | ninf, _ => true
  | fin _, inf => true
  | _, _ => false

/-- IEEE absolute value on FP. -/
def FP.abs : FP → FP
  | nan => nan
  | fin a => fin |a|
  | inf => inf
  | ninf => inf

/-- np.clip on FP: nan passes through (both comparisons are False). -/
def clipFP (x lo hi : FP) : FP :=
  if FP.lt x lo then lo else if FP.lt hi x then hi else x

/-- The 2PL probability branch of the kernel over FP values. -/
def prob2PL_FP (eF : FP → FP) (a b theta : FP) : FP :=
  let z := clipFP (FP.mul a (FP.sub theta b)) (FP.fin (-30)) (FP.fin 30)
  if FP.le (FP.fin 0) z then
    FP.div (FP.fin 1) (FP.add (FP.fin 1) (eF (FP.neg z)))
  else FP.div (eF z) (FP.add (FP.fin 1) (eF z))

/-- The derivative-sum loop of _map_estimation over FP values. -/
def deriv_sums_FP (eF : FP → FP) (responses : List FP)
    (item_params : List (FP × FP)) (theta : FP) : FP × FP :=
  (List.zip responses item_params).foldl
    (fun acc rp =>
      let r := rp.1
      let a := rp.2.1
      let b := rp.2.2
      let p := prob2PL_FP eF a b theta
      let q := FP.sub (FP.fin 1) p
      (FP.add acc.1 (FP.mul a (FP.sub r p)),
       FP.sub acc.2 (FP.mul (FP.mul (FP.mul a a) p) q)))
    (FP.fin 0, FP.fin 0)

/-- The Newton-Raphson loop of _map_estimation over FP values. -/
def newton_loop_FP (eF : FP → FP) (responses : List FP)
    (item_params : List (FP × FP)) : Nat → FP → FP
  | 0, theta => theta
  | Nat.succ fuel, theta =>
    let ds := deriv_sums_FP eF responses item_params theta
    let prior_first_deriv :=
      FP.div (FP.neg (FP.sub theta (FP.fin prior_mean))) (FP.fin prior_variance)
    let prior_second_deriv := FP.div (FP.neg (FP.fin 1)) (FP.fin prior_variance)
    let total_first_deriv := FP.add ds.1 prior_first_deriv
    let total_second_deriv := FP.add ds.2 prior_second_deriv
    if FP.le (FP.fin 0) total_second_deriv then theta
    else
      let theta_new := clipFP
        (FP.sub theta (FP.div total_first_deriv total_second_deriv))
        (FP.fin (-10)) (FP.fin 10)
      if FP.lt (FP.abs (FP.sub theta_new theta)) (FP.fin (1 / 1000000))
      then theta_new
      else newton_loop_FP eF responses item_params fuel theta_new

/-- The final second-derivative recomputation of _map_estimation over FP. -/
def final_second_sum_FP (eF : FP → FP) (responses : List FP)
    (item_params : List (FP × FP)) (theta : FP) : FP :=
  (List.zip responses item_params).foldl
    (fun acc rp =>
      let a := rp.2.1
      let b := rp.2.2
      let p := prob2PL_FP eF a b theta
      let q := FP.sub (FP.fin 1) p
      FP.sub acc (FP.mul (FP.mul (FP.mul a a) p) q))
    (FP.fin 0)

/-- _map_estimation over FP values. -/
def map_estimation_FP (eF sqrtF : FP → FP) (responses : List FP)
    (item_params : List (FP × FP)) : FP × FP :=
  let theta := newton_loop_FP eF responses item_params 50 (FP.fin prior_mean)
  let final_second_deriv := FP.add
    (final_second_sum_FP eF responses item_params theta)
    (FP.div (FP.neg (FP.fin 1)) (FP.fin prior_variance))
  let information := FP.neg final_second_deriv
  let standard_error :=
    if FP.lt (FP.fin 0) information
    then clipFP (FP.div (FP.fin 1) (sqrtF information)) (FP.fin (1 / 100)) (FP.fin 2)
    else FP.fin 2
  (theta, standard_error)

/-- An item whose IRT parameters are FP values, so non-finite parameters
can be represented. -/
structure AssessmentItemFP where
  discrimination : FP
  difficulty : FP
deriving DecidableEq

/-- IRTServiceAdapter.calculate_ability over FP parameters: the length
check, the empty-input early return, and otherwise the MAP kernel on the
zipped scores and parameters.  No finiteness check appears anywhere. -/
def calculate_ability_FP (eF sqrtF : FP → FP)
    (responses : List AssessmentResponse) (items : List AssessmentItemFP) :
    Except DomainError (FP × FP) :=
  if responses.length ≠ items.length then .error .invalidInput
  else if responses.isEmpty || items.isEmpty then .ok (FP.fin 0, FP.fin 2)
  else
    let pairs := responses.zip items
    .ok (map_estimation_FP eF sqrtF
      (pairs.map fun pr => FP.fin pr.1.calculate_score)
      (pairs.map fun pr => (pr.2.discrimination, pr.2.difficulty)))

/-- A total stand-in for np.exp on FP: the special values follow the math
library (exp nan = nan, exp inf = inf, exp(-inf) = 0); the finite branch
is arbitrary because no claim here depends on its value. -/
def fpexp_total : FP → FP
  | FP.nan => FP.nan
  | FP.inf => FP.inf
  | FP.ninf => FP.fin 0
  | FP.fin _ => FP.fin 1

/-- A total stand-in for np.sqrt on FP, in the same spirit. -/
def fpsqrt_total : FP → FP
  | FP.nan => FP.nan
  | FP.inf => FP.inf
  | FP.ninf => FP.nan
  | FP.fin _ => FP.fin 1

/-- An item carrying nan parameters. -/
def nan_item : AssessmentItemFP :=
  { discrimination := FP.nan, difficulty := FP.nan }

theorem newton_loop_FP_nan (fuel : Nat) :
    newton_loop_FP fpexp_total [FP.fin 1] [(FP.nan, FP.nan)] fuel FP.nan =
      FP.nan := by
  induction fuel with
  | zero => rfl
  | succ n ih =>
    rw [newton_loop_FP]
    simp only [deriv_sums_FP, prob2PL_FP, clipFP, FP.add, FP.sub, FP.mul,
      FP.div, FP.neg, FP.le, FP.lt, FP.abs, fpexp_total, List.zip,
      List.zipWith, List.foldl, Bool.false_eq_true, if_false]
    exact ih

theorem map_estimation_FP_nan :
    map_estimation_FP fpexp_total fpsqrt_total [FP.fin 1] [(FP.nan, FP.nan)] =
      (FP.nan, FP.fin 2) := by
  have h50 : (50 : Nat) = Nat.succ 49 := rfl
  have hstep : newton_loop_FP fpexp_total [FP.fin 1] [(FP.nan, FP.nan)] 50
      (FP.fin prior_mean) = FP.nan := by
    rw [h50, newton_loop_FP]
    simp only [prior_mean, prior_variance, deriv_sums_FP, prob2PL_FP, clipFP,
      FP.add, FP.sub, FP.mul, FP.div, FP.neg, FP.le, FP.lt, FP.abs,
      fpexp_total, List.zip, List.zipWith, List.foldl, Bool.false_eq_true,
      if_false]
    exact newton_loop_FP_nan 49
  unfold map_estimation_FP
  rw [hstep]
  simp only [prior_variance, final_second_sum_FP, prob2PL_FP, clipFP, FP.add,
    FP.sub, FP.mul, FP.div, FP.neg, FP.le, FP.lt, FP.abs, fpexp_total,
    List.zip, List.zipWith, List.foldl, Bool.false_eq_true, if_false]

/-- C3 counterexample: an item with nan (non-finite) parameters is not
rejected: calculate_ability returns a normal result (nan theta, fallback
SE 2.0) instead of failing with InvalidInput. -/
theorem c3_nonfinite_param_not_rejected :
    calculate_ability_FP fpexp_total fpsqrt_total [submitted_fixture]
        [nan_item] = .ok (FP.nan, FP.fin 2) ∧
    calculate_ability_FP fpexp_total fpsqrt_total [submitted_fixture]
        [nan_item] ≠ .error DomainError.invalidInput := by
  have hcomp : calculate_ability_FP fpexp_total fpsqrt_total
      [submitted_fixture] [nan_item] = .ok (FP.nan, FP.fin 2) := by
    unfold calculate_ability_FP
    rw [if_neg (by decide), if_neg (by decide)]
    simp only [List.zip, List.zipWith, List.map, nan_item,
      submitted_fixture, AssessmentResponse.calculate_score]
    rw [map_estimation_FP_nan]
  exact ⟨hcomp, by rw [hcomp]; exact fun h => Except.noConfusion h⟩

/-- C3 (amended): calculate_ability returns exactly (0.0, 2.0) on empty
input and fails InvalidInput on a length mismatch, but — contrary to the
claim — it performs no finiteness check: for every matching non-empty
input, non-finite parameters included, it returns a normal result. -/
theorem c3_calculate_ability_edge_cases :
    (∀ eF sqrtF : FP → FP,
      calculate_ability_FP eF sqrtF [] [] = .ok (FP.fin 0, FP.fin 2)) ∧
    (∀ (eF sqrtF : FP → FP) (rs : List AssessmentResponse)
      (items : List AssessmentItemFP), rs.length ≠ items.length →
      calculate_ability_FP eF sqrtF rs items = .error DomainError.invalidInput) ∧
    (∀ (eF sqrtF : FP → FP) (rs : List AssessmentResponse)
      (items : List AssessmentItemFP), rs.length = items.length → rs ≠ [] →
      (calculate_ability_FP eF sqrtF rs items).isOk = true) := by
  refine ⟨fun eF sqrtF => rfl, ?_, ?_⟩
  · intro eF sqrtF rs items hlen
    unfold calculate_ability_FP
    rw [if_pos hlen]
  · intro eF sqrtF rs items hlen hne
    have hitems : items ≠ [] := by
      intro h
      rw [h, List.length_nil] at hlen
      exact hne (List.eq_nil_of_length_eq_zero hlen)
    unfold calculate_ability_FP
    rw [if_neg (by rw [hlen]; exact fun h => h rfl)]
    rw [if_neg (by
      simp only [Bool.or_eq_true, List.isEmpty_iff]
      rintro (h | h)
      · exact hne h
      · exact hitems h)]
    rfl

theorem c3_calculate_ability_edge_cases_witness :
    (([submitted_fixture].length ≠ ([] : List AssessmentItemFP).length) ∧
      calculate_ability_FP fpexp_total fpsqrt_total [submitted_fixture] [] =
        .error DomainError.invalidInput) ∧
    (([submitted_fixture].length = [nan_item].length ∧
        [submitted_fixture] ≠ []) ∧
      (calculate_ability_FP fpexp_total fpsqrt_total [submitted_fixture]
        [nan_item]).isOk = true) :=
  ⟨⟨by decide,
    c3_calculate_ability_edge_cases.2.1 fpexp_total fpsqrt_total
      [submitted_fixture] [] (by decide)⟩,
   ⟨⟨rfl, by decide⟩,
    c3_calculate_ability_edge_cases.2.2 fpexp_total fpsqrt_total
      [submitted_fixture] [nan_item] rfl (by decide)⟩⟩

-- Use-case orchestrators (app/application/interactors.py).  Repository
-- loads and the unit of work are modelled by passing the stored aggregate
-- in and returning the saved one; any raised error rolls the state back.
-- The template and config lookups always succeed in this model (their
-- absence is outside every claim); timestamps are in minutes, so the
-- session expiry is now + time_limit_minutes.

/-- The fixed environment of a request: the item catalog of the template,
the assessment config, and the kernel transcendental models. -/
structure Env where
  catalog : Catalog
  config : AssessmentConfig
  expQ : ℚ → ℚ
  sqrtQ : ℚ → ℚ

/-- The problem kinds raised by the interactors (app/domain/exceptions.py);
an uncaught ValueError from a domain entity surfaces as domainError. -/
inductive AppError
  | itemNotFound
  | sessionNotFound
  | invalidSessionState
  | invalidResponse
  | domainError (e : DomainError)
deriving DecidableEq

/-- The result of StartPlacementTestInteractor visible to the claims:
the session id and the first question id. -/
structure StartResult where
  session_id : String
  first_question_id : String
deriving DecidableEq

/-- The result of SubmitAnswerInteractor visible to the claims. -/
structure SubmitResult where
  next_question_id : Option String
  is_complete : Bool
deriving DecidableEq

/-- The fresh path of StartPlacementTestInteractor.execute: compute the
expiry and starting ability from config, start the session, select the
first question from the catalog, and present it. -/
def start_fresh (env : Env) (assignment : AssignedAssessment)
    (new_session_id new_response_id : String) (now : ℤ) :
    Except AppError (AssignedAssessment × StartResult) :=
  let time_limit : ℤ := env.config.get_time_limit
  let expires_at := now + time_limit
  let starting_ability : ℚ := env.config.starting_ability
  match assignment.start_session new_session_id now expires_at starting_ability with
  | .error err => .error (.domainError err)
  | .ok (a1, session) =>
    let skill_areas : List String := env.config.skill_areas
    let available_items := get_items_by_skill_areas env.catalog skill_areas []
    match select_next_question env.expQ starting_ability skill_areas []
        available_items with
    | none => .error .itemNotFound
    | some first_question =>
      match a1.present_question new_response_id first_question.id now with
      | .error err => .error (.domainError err)
      | .ok (a2, _) =>
        .ok (a2, { session_id := session.id,
                   first_question_id := first_question.id })

/-- StartPlacementTestInteractor.execute: resume when an active session has
a pending response (returning its item without allocating state), else the
fresh path. -/
def start_session_interactor (env : Env) (assignment : AssignedAssessment)
    (new_session_id new_response_id : String) (now : ℤ) :
    Except AppError (AssignedAssessment × StartResult) :=
  let resume : Option (String × AssessmentResponse) :=
    if assignment.has_active_session then
      match assignment.session with
      | some s =>
        match s.get_pending_response with
        | some pending => some (s.id, pending)
        | none => none
      | none => none
    else none
  match resume with
  | some (sid, pending) =>
    match get_item env.catalog pending.item_id with
    | none => .error .itemNotFound
    | some _ =>
      .ok (assignment, { session_id := sid,
                         first_question_id := pending.item_id })
  | none => start_fresh env assignment new_session_id new_response_id now

/-- SubmitAnswerInteractor._select_next_question: re-query eligible items
excluding every answered id, select, and either present the next question
or complete the assessment. -/
def select_and_present (env : Env) (assignment : AssignedAssessment)
    (s2 : AssessmentSession) (new_ability : ℚ) (new_response_id : String)
    (now : ℤ) : Except AppError (AssignedAssessment × SubmitResult) :=
  let answered_ids := s2.get_answered_item_ids
  let skill_areas : List String := env.config.skill_areas
  let available_items := get_items_by_skill_areas env.catalog skill_areas
    answered_ids
  match select_next_question env.expQ new_ability skill_areas answered_ids
      available_items with
  | some next_question =>
    match assignment.present_question new_response_id next_question.id now with
    | .error err => .error (.domainError err)
    | .ok (a3, _) =>
      .ok (a3, { next_question_id := some next_question.id,
                 is_complete := false })
  | none =>
    match assignment.complete_assessment now with
    | .error err => .error (.domainError err)
    | .ok a3 => .ok (a3, { next_question_id := none, is_complete := true })

/-- SubmitAnswerInteractor.execute: guard the session, pending response and
payload, score against the pending item, finalize the response, recompute
the ability over the previously submitted responses plus the current one,
then terminate or present the next question. -/
def submit_answer_interactor (env : Env) (assignment : AssignedAssessment)
    (response_data : Option String) (time_taken : Option ℤ)
    (new_response_id : String) (now : ℤ) :
    Except AppError (AssignedAssessment × SubmitResult) :=
  match assignment.session with
  | none => .error .sessionNotFound
  | some s =>
    if !(s.can_accept_answer now) then .error .invalidSessionState
    else match s.get_pending_response with
      | none => .error .sessionNotFound
      | some pending =>
        if !(has_valid_response response_data) then .error .invalidResponse
        else match get_item env.catalog pending.item_id with
          | none => .error .itemNotFound
          | some item_entity =>
            match score_response item_entity response_data with
            | .error err => .error (.domainError err)
            | .ok (score, is_correct) =>
              let previous_responses := s.get_submitted_responses
              let previous_items := build_previous_items env.catalog
                previous_responses
              match assignment.submit_response response_data is_correct score
                  time_taken now with
              | .error err => .error (.domainError err)
              | .ok (a1, _) =>
                let est := estimate_ability_with_item env.expQ env.sqrtQ
                  previous_responses previous_items item_entity score
                match a1.update_ability_estimate est.1 (some est.2) with
                | .error err => .error (.domainError err)
                | .ok a2 =>
                  match a2.session with
                  | none => .error .sessionNotFound
                  | some s2 =>
                    if check_termination_criteria s2 env.config then
                      match a2.complete_assessment now with
                      | .error err => .error (.domainError err)
                      | .ok a3 =>
                        .ok (a3, { next_question_id := none,
                                   is_complete := true })
                    else select_and_present env a2 s2 est.1 new_response_id now

/-- A client request with the ids the orchestrator would generate and the
request time. -/
inductive Op
  | start (new_session_id new_response_id : String) (now : ℤ)
  | submit (response_data : Option String) (time_taken : Option ℤ)
      (new_response_id : String) (now : ℤ)

/-- One request against the stored aggregate: a successful interactor run
saves the new aggregate; any failure rolls back, leaving it unchanged. -/
def apply_op (env : Env) (assignment : AssignedAssessment) :
    Op → AssignedAssessment
  | .start sid rid now =>
    match start_session_interactor env assignment sid rid now with
    | .ok (a2, _) => a2
    | .error _ => assignment
  | .submit rd tt rid now =>
    match submit_answer_interactor env assignment rd tt rid now with
    | .ok (a2, _) => a2
    | .error _ => assignment

/-- The stored aggregate after a sequence of requests. -/
def run_ops (env : Env) (assignment : AssignedAssessment) (ops : List Op) :
    AssignedAssessment :=
  ops.foldl (apply_op env) assignment

/-- Invariant I1 in dropLast form: every response except the most recently
created one is submitted.  This gives at most one pending response, and a
pending response, if any, is the newest. -/
def single_pending (a : AssignedAssessment) : Prop :=
  match a.session with
  | none => True
  | some s => ∀ r ∈ s.responses.dropLast, r.is_pending = false

-- Shape lemmas for the domain operations, feeding the orchestrator proofs.

theorem start_session_ok_shape (a : AssignedAssessment) (sid : String)
    (now exp : ℤ) (ab : ℚ) (a1 : AssignedAssessment) (sess : AssessmentSession)
    (h : a.start_session sid now exp ab = .ok (a1, sess)) :
    a1.session = some sess ∧ sess.responses = [] ∧
      sess.status = SessionStatus.IN_PROGRESS ∧ sess.id = sid ∧
      a1.status = AssignmentStatus.IN_PROGRESS := by
  unfold AssignedAssessment.start_session at h
  split at h
  · cases h
  · split at h
    · cases h
    · rw [Except.ok.injEq, Prod.mk.injEq] at h
      obtain ⟨ha, hs⟩ := h
      subst ha
      subst hs
      exact ⟨rfl, rfl, rfl, rfl, rfl⟩

theorem present_question_ok_shape (a : AssignedAssessment) (rid iid : String)
    (now : ℤ) (a2 : AssignedAssessment) (r : AssessmentResponse)
    (h : a.present_question rid iid now = .ok (a2, r)) :
    ∃ s, a.session = some s ∧ s.status = SessionStatus.IN_PROGRESS ∧
      a2 = { a with
              session := some { s with responses := s.responses ++ [r] } } ∧
      r.submitted_at = none ∧ r.item_id = iid ∧ a2.status = a.status := by
  unfold AssignedAssessment.present_question at h
  match hs : a.session with
  | none => rw [hs] at h; cases h
  | some s =>
    simp only [hs] at h
    split at h
    · cases h
    · next hstat =>
      rw [Except.ok.injEq, Prod.mk.injEq] at h
      obtain ⟨ha, hr⟩ := h
      subst ha
      refine ⟨s, rfl, not_not.mp hstat, ?_, ?_, ?_, rfl⟩
      · rw [hr]
      · rw [← hr]
      · rw [← hr]

theorem submit_response_ok_shape (a : AssignedAssessment) (rd : Option String)
    (ic : Bool) (sc : ℚ) (tt : Option ℤ) (now : ℤ)
    (a1 : AssignedAssessment) (upd : AssessmentResponse)
    (h : a.submit_response rd ic sc tt now = .ok (a1, upd)) :
    ∃ s, a.session = some s ∧ upd.is_pending = false ∧
      a1 = { a with
              session := some { s with
                responses := set_first_pending s.responses upd,
                questions_answered := s.questions_answered + 1 } } := by
  unfold AssignedAssessment.submit_response at h
  match hs : a.session with
  | none => rw [hs] at h; cases h
  | some s =>
    simp only [hs] at h
    split at h
    · cases h
    · split at h
      · cases h
      · split at h
        · cases h
        · rw [Except.ok.injEq, Prod.mk.injEq] at h
          obtain ⟨ha, hr⟩ := h
          subst ha
          refine ⟨s, rfl, ?_, ?_⟩
          · rw [← hr]; rfl
          · rw [hr]

theorem update_ability_ok_shape (a : AssignedAssessment) (th : ℚ)
    (se : Option ℚ) (a2 : AssignedAssessment)
    (h : a.update_ability_estimate th se = .ok a2) :
    ∃ s s2, a.session = some s ∧ a2.session = some s2 ∧
      s2.responses = s.responses ∧ s2.status = s.status ∧
      a2.status = a.status := by
  unfold AssignedAssessment.update_ability_estimate at h
  match hs : a.session with
  | none => rw [hs] at h; cases h
  | some s =>
    simp only [hs] at h
    rw [Except.ok.injEq] at h
    subst h
    exact ⟨s, _, rfl, rfl, rfl, rfl, rfl⟩

theorem complete_ok_shape (a : AssignedAssessment) (now : ℤ)
    (a3 : AssignedAssessment) (h : a.complete_assessment now = .ok a3) :
    ∃ s, a.session = some s ∧
      a3.session = some { s with
        status := SessionStatus.COMPLETED,
        completed_at := some now } ∧
      a3.status = AssignmentStatus.COMPLETED := by
  unfold AssignedAssessment.complete_assessment at h
  match hs : a.session with
  | none => rw [hs] at h; cases h
  | some s =>
    simp only [hs] at h
    rw [Except.ok.injEq] at h
    subst h
    exact ⟨s, rfl, rfl, rfl⟩

theorem set_first_pending_all_submitted (upd : AssessmentResponse)
    (hupd : upd.is_pending = false) :
    ∀ (l : List AssessmentResponse),
      (∀ r ∈ l.dropLast, r.is_pending = false) →
      ∀ r ∈ set_first_pending l upd, r.is_pending = false := by
  intro l
  induction l with
  | nil => intro _ r hr; cases hr
  | cons x rest ih =>
    intro hinv r hr
    cases rest with
    | nil =>
      rw [set_first_pending] at hr
      split at hr
      · rcases List.mem_cons.mp hr with h | h
        · exact h ▸ hupd
        · cases h
      · next hx =>
        rcases List.mem_cons.mp hr with h | h
        · exact h ▸ Bool.eq_false_iff.mpr hx
        · cases h
    | cons y ys =>
      have hx : x.is_pending = false := hinv x (List.mem_cons_self _ _)
      rw [set_first_pending, if_neg (by rw [hx]; exact Bool.false_ne_true)] at hr
      rcases List.mem_cons.mp hr with h | h
      · exact h ▸ hx
      · exact ih (fun r hrd => hinv r (List.mem_cons_of_mem x hrd)) r h

theorem select_and_present_preserves (env : Env) (a : AssignedAssessment)
    (s2 : AssessmentSession) (ab : ℚ) (rid : String) (now : ℤ)
    (a3 : AssignedAssessment) (res : SubmitResult)
    (hsess : a.session = some s2)
    (hall : ∀ r ∈ s2.responses, r.is_pending = false)
    (h : select_and_present env a s2 ab rid now = .ok (a3, res)) :
    single_pending a3 := by
  unfold select_and_present at h
  cases hsel : select_next_question env.expQ ab env.config.skill_areas
      s2.get_answered_item_ids
      (get_items_by_skill_areas env.catalog env.config.skill_areas
        s2.get_answered_item_ids) with
  | some nxt =>
    simp only [hsel] at h
    cases hpres : a.present_question rid nxt.id now with
    | error e => simp [hpres] at h
    | ok pr =>
      obtain ⟨a3', r⟩ := pr
      simp only [hpres] at h
      rw [Except.ok.injEq, Prod.mk.injEq] at h
      obtain ⟨ha, -⟩ := h
      subst ha
      obtain ⟨s', hs', -, ha3, -, -, -⟩ :=
        present_question_ok_shape _ _ _ _ _ _ hpres
      rw [hsess] at hs'
      injection hs' with hs'
      subst hs'
      unfold single_pending
      rw [ha3]
      show ∀ r' ∈ (s2.responses ++ [r]).dropLast, r'.is_pending = false
      rw [List.dropLast_concat]
      exact hall
  | none =>
    simp only [hsel] at h
    cases hcomp : a.complete_assessment now with
    | error e => simp [hcomp] at h
    | ok a3' =>
      simp only [hcomp] at h
      rw [Except.ok.injEq, Prod.mk.injEq] at h
      obtain ⟨ha, -⟩ := h
      subst ha
      obtain ⟨s', hs', ha3, -⟩ := complete_ok_shape _ _ _ hcomp
      rw [hsess] at hs'
      injection hs' with hs'
      subst hs'
      unfold single_pending
      rw [ha3]
      intro r' hr'
      exact hall r' (List.mem_of_mem_dropLast hr')

theorem start_fresh_preserves (env : Env) (a : AssignedAssessment)
    (sid rid : String) (now : ℤ) (a2 : AssignedAssessment) (res : StartResult)
    (h : start_fresh env a sid rid now = .ok (a2, res)) :
    single_pending a2 := by
  unfold start_fresh at h
  cases hstart : a.start_session sid now (now + env.config.get_time_limit)
      env.config.starting_ability with
  | error e => simp [hstart] at h
  | ok pr =>
    obtain ⟨a1, sess⟩ := pr
    simp only [hstart] at h
    cases hsel : select_next_question env.expQ env.config.starting_ability
        env.config.skill_areas []
        (get_items_by_skill_areas env.catalog env.config.skill_areas []) with
    | none => simp [hsel] at h
    | some fq =>
      simp only [hsel] at h
      cases hpres : a1.present_question rid fq.id now with
      | error e => simp [hpres] at h
      | ok pr2 =>
        obtain ⟨a2', r⟩ := pr2
        simp only [hpres] at h
        rw [Except.ok.injEq, Prod.mk.injEq] at h
        obtain ⟨ha, -⟩ := h
        subst ha
        obtain ⟨hsess1, hresp, -, -, -⟩ :=
          start_session_ok_shape _ _ _ _ _ _ _ hstart
        obtain ⟨s', hs', -, ha2, -, -, -⟩ :=
          present_question_ok_shape _ _ _ _ _ _ hpres
        rw [hsess1] at hs'
        injection hs' with hs'
        subst hs'
        unfold single_pending
        rw [ha2]
        show ∀ r' ∈ (sess.responses ++ [r]).dropLast, r'.is_pending = false
        rw [List.dropLast_concat]
        intro r' hr'
        rw [hresp] at hr'
        cases hr'

theorem start_interactor_preserves (env : Env) (a : AssignedAssessment)
    (sid rid : String) (now : ℤ) (a2 : AssignedAssessment) (res : StartResult)
    (h : start_session_interactor env a sid rid now = .ok (a2, res))
    (hinv : single_pending a) : single_pending a2 := by
  unfold start_session_interactor at h
  cases hact : a.has_active_session with
  | false =>
    simp only [hact, Bool.false_eq_true, if_false] at h
    exact start_fresh_preserves env a sid rid now a2 res h
  | true =>
    simp only [hact, if_true] at h
    cases hsess : a.session with
    | none =>
      simp only [hsess] at h
      exact start_fresh_preserves env a sid rid now a2 res h
    | some s =>
      simp only [hsess] at h
      cases hpend : s.get_pending_response with
      | none =>
        simp only [hpend] at h
        exact start_fresh_preserves env a sid rid now a2 res h
      | some pending =>
        simp only [hpend] at h
        cases hitem : get_item env.catalog pending.item_id with
        | none => simp [hitem] at h
        | some it =>
          simp only [hitem] at h
          rw [Except.ok.injEq, Prod.mk.injEq] at h
          obtain ⟨ha, -⟩ := h
          subst ha
          exact hinv

theorem submit_interactor_preserves (env : Env) (a : AssignedAssessment)
    (rd : Option String) (tt : Option ℤ) (rid : String) (now : ℤ)
    (a2 : AssignedAssessment) (res : SubmitResult)
    (h : submit_answer_interactor env a rd tt rid now = .ok (a2, res))
    (hinv : single_pending a) : single_pending a2 := by
  unfold submit_answer_interactor at h
  cases hsess : a.session with
  | none => simp [hsess] at h
  | some s =>
    simp only [hsess] at h
    cases hacc : s.can_accept_answer now with
    | false => simp [hacc] at h
    | true =>
      simp only [hacc, Bool.not_true, Bool.false_eq_true, if_false] at h
      cases hpend : s.get_pending_response with
      | none => simp only [hpend] at h; cases h
      | some pending =>
        simp only [hpend] at h
        cases hvalid : has_valid_response rd with
        | false => simp [hvalid] at h
        | true =>
          simp only [hvalid, Bool.not_true, Bool.false_eq_true, if_false] at h
          cases hitem : get_item env.catalog pending.item_id with
          | none => simp only [hitem] at h; cases h
          | some item =>
            simp only [hitem] at h
            cases hscore : score_response item rd with
            | error e => simp only [hscore] at h; cases h
            | ok pr =>
              obtain ⟨score, ic⟩ := pr
              simp only [hscore] at h
              cases hsub : a.submit_response rd ic score tt now with
              | error e => simp only [hsub] at h; cases h
              | ok pr2 =>
                obtain ⟨a1, upd⟩ := pr2
                simp only [hsub] at h
                cases hupd : a1.update_ability_estimate
                    (estimate_ability_with_item env.expQ env.sqrtQ
                      s.get_submitted_responses
                      (build_previous_items env.catalog s.get_submitted_responses)
                      item score).1
                    (some (estimate_ability_with_item env.expQ env.sqrtQ
                      s.get_submitted_responses
                      (build_previous_items env.catalog s.get_submitted_responses)
                      item score).2) with
                | error e => simp only [hupd] at h; cases h
                | ok a2' =>
                  simp only [hupd] at h
                  cases hs2 : a2'.session with
                  | none => simp only [hs2] at h; cases h
                  | some s2 =>
                    simp only [hs2] at h
                    obtain ⟨s', hs', hupdp, ha1⟩ :=
                      submit_response_ok_shape _ _ _ _ _ _ _ _ hsub
                    rw [hsess] at hs'
                    injection hs' with hs'
                    subst hs'
                    obtain ⟨su, su2, hsu, hsu2, hresp2, -, -⟩ :=
                      update_ability_ok_shape _ _ _ _ hupd
                    have hinvs : ∀ r ∈ s.responses.dropLast,
                        r.is_pending = false := by
                      unfold single_pending at hinv
                      rw [hsess] at hinv
                      exact hinv
                    rw [ha1] at hsu
                    injection hsu with h1
                    have hall : ∀ r ∈ s2.responses, r.is_pending = false := by
                      have hs2r : s2.responses =
                          set_first_pending s.responses upd := by
                        rw [hs2] at hsu2
                        injection hsu2 with he
                        rw [← he] at hresp2
                        rw [hresp2, ← h1]
                      rw [hs2r]
                      exact set_first_pending_all_submitted upd hupdp
                        s.responses hinvs
                    cases hterm : check_termination_criteria s2 env.config with
                    | true =>
                      simp only [hterm, if_true] at h
                      cases hcomp : a2'.complete_assessment now with
                      | error e => simp only [hcomp] at h; cases h
                      | ok a3 =>
                        simp only [hcomp] at h
                        rw [Except.ok.injEq, Prod.mk.injEq] at h
                        obtain ⟨ha, -⟩ := h
                        subst ha
                        obtain ⟨sc', hsc', ha3, -⟩ := complete_ok_shape _ _ _ hcomp
                        rw [hs2] at hsc'
                        injection hsc' with hsc'
                        subst hsc'
                        unfold single_pending
                        rw [ha3]
                        intro r' hr'
                        exact hall r' (List.mem_of_mem_dropLast hr')
                    | false =>
                      simp only [hterm, Bool.false_eq_true, if_false] at h
                      exact select_and_present_preserves env a2' s2 _ rid now
                        a2 res hs2 hall h

theorem apply_op_preserves (env : Env) (a : AssignedAssessment) (op : Op)
    (hinv : single_pending a) : single_pending (apply_op env a op) := by
  cases op with
  | start sid rid now =>
    unfold apply_op
    cases hres : start_session_interactor env a sid rid now with
    | error e => simp only [hres]; exact hinv
    | ok pr =>
      obtain ⟨a2, r⟩ := pr
      simp only [hres]
      exact start_interactor_preserves env a sid rid now a2 r hres hinv
  | submit rd tt rid now =>
    unfold apply_op
    cases hres : submit_answer_interactor env a rd tt rid now with
    | error e => simp only [hres]; exact hinv
    | ok pr =>
      obtain ⟨a2, r⟩ := pr
      simp only [hres]
      exact submit_interactor_preserves env a rd tt rid now a2 r hres hinv

theorem run_ops_preserves (env : Env) (ops : List Op) :
    ∀ (a : AssignedAssessment), single_pending a →
      single_pending (run_ops env a ops) := by
  induction ops with
  | nil => intro a h; exact h
  | cons op rest ih =>
    intro a h
    unfold run_ops
    rw [List.foldl_cons]
    exact ih _ (apply_op_preserves env a op h)

theorem dropLast_inv_consequences (l : List AssessmentResponse)
    (h : ∀ r ∈ l.dropLast, r.is_pending = false) :
    (l.filter (·.is_pending)).length ≤ 1 ∧
      ∀ r ∈ l, r.is_pending = true → l.getLast? = some r := by
  by_cases hne : l = []
  · subst hne
    exact ⟨by simp, by intro r hr; cases hr⟩
  · have hdecomp := List.dropLast_append_getLast hne
    constructor
    · have hsplit : l.filter (·.is_pending) =
          (l.dropLast ++ [l.getLast hne]).filter (·.is_pending) := by
        rw [hdecomp]
      rw [hsplit, List.filter_append]
      have hnil : l.dropLast.filter (·.is_pending) = [] := by
        rw [List.filter_eq_nil_iff]
        intro r hr
        rw [h r hr]
        exact Bool.false_ne_true
      rw [hnil, List.nil_append, List.filter_singleton]
      cases hpl : (l.getLast hne).is_pending <;> simp [hpl]
    · intro r hr hpend
      rw [← hdecomp] at hr
      rcases List.mem_append.mp hr with h1 | h1
      · rw [h r h1] at hpend
        cases hpend
      · rw [List.mem_singleton.mp h1]
        exact List.getLast?_eq_getLast_of_ne_nil hne

/-- C7: starting from a fresh assignment (no session yet), every state
reachable through StartSession and SubmitAnswer requests keeps the single
pending invariant: at most one pending response exists, and a pending
response, when present, is the most recently created one. -/
theorem c7_single_pending_invariant (env : Env) (a0 : AssignedAssessment)
    (ops : List Op) (h0 : a0.session = none) :
    single_pending (run_ops env a0 ops) ∧
    ∀ s, (run_ops env a0 ops).session = some s →
      ((s.responses.filter (·.is_pending)).length ≤ 1 ∧
        ∀ r ∈ s.responses, r.is_pending = true →
          s.responses.getLast? = some r) := by
  have hinv0 : single_pending a0 := by
    unfold single_pending
    rw [h0]
    trivial
  have hinv := run_ops_preserves env ops a0 hinv0
  refine ⟨hinv, ?_⟩
  intro s hs
  apply dropLast_inv_consequences
  unfold single_pending at hinv
  rw [hs] at hinv
  exact hinv

/-- A not-yet-started assignment. -/
def fresh_assignment : AssignedAssessment :=
  { id := "assign-1", template_id := "tpl-1", due_at := none,
    status := AssignmentStatus.PENDING, session := none }

/-- A concrete environment with two catalog items. -/
def env_fixture : Env :=
  { catalog := { items := [item_a, item_b] }, config := empty_config,
    expQ := const_one, sqrtQ := const_one }

theorem c7_single_pending_invariant_witness :
    fresh_assignment.session = none ∧
    (single_pending
        (run_ops env_fixture fresh_assignment [Op.start "s1" "r1" 0]) ∧
      ∀ s, (run_ops env_fixture fresh_assignment
          [Op.start "s1" "r1" 0]).session = some s →
        ((s.responses.filter (·.is_pending)).length ≤ 1 ∧
          ∀ r ∈ s.responses, r.is_pending = true →
            s.responses.getLast? = some r)) :=
  ⟨rfl, c7_single_pending_invariant env_fixture fresh_assignment
    [Op.start "s1" "r1" 0] rfl⟩

theorem select_go_mem (e : ℚ → ℚ) (ability : ℚ) :
    ∀ (l : List AssessmentItem) (b : AssessmentItem) (m : ℚ)
      (it : AssessmentItem),
      select_go e ability l (some b) m = some it → it = b ∨ it ∈ l := by
  intro l
  induction l with
  | nil =>
    intro b m it h
    simp only [select_go] at h
    injection h with h
    exact Or.inl h.symm
  | cons x rest ih =>
    intro b m it h
    rw [select_go] at h
    split at h
    · rcases ih x _ it h with h1 | h1
      · exact Or.inr (h1 ▸ List.mem_cons_self x rest)
      · exact Or.inr (List.mem_cons_of_mem x h1)
    · rcases ih b m it h with h1 | h1
      · exact Or.inl h1
      · exact Or.inr (List.mem_cons_of_mem x h1)

theorem select_next_question_mem (e : ℚ → ℚ) (ability : ℚ)
    (sk used : List String) (items : List AssessmentItem)
    (it : AssessmentItem)
    (h : select_next_question e ability sk used items = some it) :
    it ∈ filtered_items sk used items := by
  unfold select_next_question at h
  by_cases hemp : (filtered_items sk used items).isEmpty
  · rw [if_pos hemp] at h
    cases h
  · rw [if_neg hemp] at h
    match hfe : filtered_items sk used items, List.isEmpty_iff.not.mp hemp with
    | x :: rest, _ =>
      rw [hfe] at h
      rw [select_go] at h
      rw [if_pos (neg_one_lt_info e ability x)] at h
      rcases select_go_mem e ability rest x _ it h with h1 | h1
      · exact h1 ▸ List.mem_cons_self x rest
      · exact List.mem_cons_of_mem x h1

theorem filtered_items_subset (sk used : List String)
    (items : List AssessmentItem) : filtered_items sk used items ⊆ items := by
  unfold filtered_items
  exact (List.filter_sublist _).subset

theorem get_items_by_skill_areas_subset (cat : Catalog)
    (sk ex : List String) : get_items_by_skill_areas cat sk ex ⊆ cat.items := by
  unfold get_items_by_skill_areas
  exact (List.filter_sublist _).subset

theorem find?_isSome_of_mem {α : Type} (l : List α) (p : α → Bool) (x : α)
    (hx : x ∈ l) (hpx : p x = true) : (l.find? p).isSome = true := by
  induction l with
  | nil => cases hx
  | cons y ys ih =>
    cases hpy : p y with
    | true => simp [List.find?_cons, hpy]
    | false =>
      rcases List.mem_cons.mp hx with h | h
      · rw [← h, hpx] at hpy
        cases hpy
      · simp only [List.find?_cons, hpy]
        exact ih h

theorem start_fresh_idempotent (env : Env) (a : AssignedAssessment)
    (sid rid : String) (now : ℤ) (a2 : AssignedAssessment) (res : StartResult)
    (h : start_fresh env a sid rid now = .ok (a2, res)) :
    ∀ (sid2 rid2 : String) (now2 : ℤ),
      start_session_interactor env a2 sid2 rid2 now2 = .ok (a2, res) := by
  intro sid2 rid2 now2
  unfold start_fresh at h
  cases hstart : a.start_session sid now (now + env.config.get_time_limit)
      env.config.starting_ability with
  | error e => simp [hstart] at h
  | ok pr =>
    obtain ⟨a1, sess⟩ := pr
    simp only [hstart] at h
    cases hsel : select_next_question env.expQ env.config.starting_ability
        env.config.skill_areas []
        (get_items_by_skill_areas env.catalog env.config.skill_areas []) with
    | none => simp [hsel] at h
    | some fq =>
      simp only [hsel] at h
      cases hpres : a1.present_question rid fq.id now with
      | error e => simp [hpres] at h
      | ok pr2 =>
        obtain ⟨a2', r⟩ := pr2
        simp only [hpres] at h
        rw [Except.ok.injEq, Prod.mk.injEq] at h
        obtain ⟨ha, hres⟩ := h
        subst ha
        subst hres
        obtain ⟨hsess1, hresp, hstatus, -, -⟩ :=
          start_session_ok_shape _ _ _ _ _ _ _ hstart
        obtain ⟨s', hs', -, ha2, hrsub, hritem, -⟩ :=
          present_question_ok_shape _ _ _ _ _ _ hpres
        rw [hsess1] at hs'
        injection hs' with hs'
        subst hs'
        have hact2 : a2'.has_active_session = true := by
          rw [ha2]
          unfold AssignedAssessment.has_active_session
          simp [hstatus]
        have hsess2 : a2'.session =
            some { sess with responses := sess.responses ++ [r] } := by
          rw [ha2]
        have hpend2 : AssessmentSession.get_pending_response
            { sess with responses := sess.responses ++ [r] } = some r := by
          unfold AssessmentSession.get_pending_response
          show (sess.responses ++ [r]).find? (·.is_pending) = some r
          rw [hresp, List.nil_append]
          simp [List.find?_cons, AssessmentResponse.is_pending, hrsub]
        have hmemcat : fq ∈ env.catalog.items :=
          get_items_by_skill_areas_subset env.catalog env.config.skill_areas []
            (filtered_items_subset env.config.skill_areas []
              (get_items_by_skill_areas env.catalog env.config.skill_areas [])
              (select_next_question_mem _ _ _ _ _ _ hsel))
        have hitem2 : (get_item env.catalog r.item_id).isSome = true := by
          rw [hritem]
          exact find?_isSome_of_mem env.catalog.items _ fq hmemcat
            (by simp)
        obtain ⟨it2, hit2⟩ := Option.isSome_iff_exists.mp hitem2
        unfold start_session_interactor
        simp only [hact2, if_true, hsess2, hpend2, hit2]
        rw [hritem]

/-- C8: after a successful StartSession, a second StartSession on the same
assignment with no intervening SubmitAnswer returns the same session id
and the same first question id, and allocates no new state: the saved
aggregate is returned unchanged through the resume path. -/
theorem c8_start_session_idempotent (env : Env) (a : AssignedAssessment)
    (sid rid : String) (now : ℤ) (a2 : AssignedAssessment) (res : StartResult)
    (h : start_session_interactor env a sid rid now = .ok (a2, res)) :
    ∀ (sid2 rid2 : String) (now2 : ℤ),
      start_session_interactor env a2 sid2 rid2 now2 = .ok (a2, res) := by
  intro sid2 rid2 now2
  unfold start_session_interactor at h
  cases hact : a.has_active_session with
  | false =>
    simp only [hact, Bool.false_eq_true, if_false] at h
    exact start_fresh_idempotent env a sid rid now a2 res h sid2 rid2 now2
  | true =>
    simp only [hact, if_true] at h
    cases hsess : a.session with
    | none =>
      simp only [hsess] at h
      exact start_fresh_idempotent env a sid rid now a2 res h sid2 rid2 now2
    | some s =>
      simp only [hsess] at h
      cases hpend : s.get_pending_response with
      | none =>
        simp only [hpend] at h
        exact start_fresh_idempotent env a sid rid now a2 res h sid2 rid2 now2
      | some pending =>
        simp only [hpend] at h
        cases hitem : get_item env.catalog pending.item_id with
        | none => simp [hitem] at h
        | some it =>
          simp only [hitem] at h
          rw [Except.ok.injEq, Prod.mk.injEq] at h
          obtain ⟨ha, hres⟩ := h
          subst ha
          subst hres
          unfold start_session_interactor
          simp only [hact, if_true, hsess, hpend, hitem]

theorem c8_start_session_idempotent_witness :
    start_session_interactor env_fixture (agg_with s_with_pending) "s1" "r1" 0 =
      .ok (agg_with s_with_pending,
        { session_id := "sess-1", first_question_id := "item-a" }) ∧
    start_session_interactor env_fixture (agg_with s_with_pending) "s2" "r2" 7 =
      .ok (agg_with s_with_pending,
        { session_id := "sess-1", first_question_id := "item-a" }) :=
  ⟨by rfl,
   c8_start_session_idempotent env_fixture (agg_with s_with_pending)
     "s1" "r1" 0 (agg_with s_with_pending)
     { session_id := "sess-1", first_question_id := "item-a" }
     (by rfl) "s2" "r2" 7⟩

/-- The aggregate after cancel_session: only the session status changes. -/
def cancelled_variant (a : AssignedAssessment) (s : AssessmentSession) :
    AssignedAssessment :=
  { a with session := some { s with status := SessionStatus.CANCELLED } }

/-- C10: cancel_session flips only the session status to CANCELLED and
leaves the assignment status (IN_PROGRESS after a start) untouched; since
start_session requires a PENDING assignment, every later start_session and
every StartSession request fails with InvalidState, and no sequence of
requests changes the aggregate again: a cancelled assessment can never be
restarted. -/
theorem c10_cancelled_never_restartable (env : Env) (a : AssignedAssessment)
    (s : AssessmentSession) (hs : a.session = some s)
    (hstat : a.status = AssignmentStatus.IN_PROGRESS) :
    ∃ a2, a.cancel_session = .ok a2 ∧
      a2.status = AssignmentStatus.IN_PROGRESS ∧
      a2.session = some { s with status := SessionStatus.CANCELLED } ∧
      (∀ (sid : String) (now expires : ℤ) (ab : ℚ),
        a2.start_session sid now expires ab = .error .invalidState) ∧
      (∀ ops, run_ops env a2 ops = a2) ∧
      (∀ (sid rid : String) (now : ℤ),
        start_session_interactor env a2 sid rid now =
          .error (.domainError .invalidState)) := by
  have hss_err : ∀ (sid : String) (now expires : ℤ) (ab : ℚ),
      (cancelled_variant a s).start_session sid now expires ab =
        .error DomainError.invalidState := by
    intro sid now expires ab
    unfold AssignedAssessment.start_session AssignedAssessment.can_start
      cancelled_variant
    simp [hstat]
  have hstart_err : ∀ (sid rid : String) (now : ℤ),
      start_session_interactor env (cancelled_variant a s) sid rid now =
        .error (.domainError .invalidState) := by
    intro sid rid now
    unfold start_session_interactor
    have hact : (cancelled_variant a s).has_active_session = false := by
      unfold AssignedAssessment.has_active_session cancelled_variant
      simp
    simp only [hact, Bool.false_eq_true, if_false]
    unfold start_fresh
    simp only [hss_err sid now (now + env.config.get_time_limit)
      env.config.starting_ability]
  have hsub_err : ∀ (rd : Option String) (tt : Option ℤ) (rid : String)
      (now : ℤ),
      submit_answer_interactor env (cancelled_variant a s) rd tt rid now =
        .error .invalidSessionState := by
    intro rd tt rid now
    unfold submit_answer_interactor cancelled_variant
    have hcaa : AssessmentSession.can_accept_answer
        { s with status := SessionStatus.CANCELLED } now = false := by
      unfold AssessmentSession.can_accept_answer
      simp
    simp [hcaa]
  have hop : ∀ op, apply_op env (cancelled_variant a s) op =
      cancelled_variant a s := by
    intro op
    cases op with
    | start sid rid now => simp [apply_op, hstart_err]
    | submit rd tt rid now => simp [apply_op, hsub_err]
  have hrun : ∀ ops, run_ops env (cancelled_variant a s) ops =
      cancelled_variant a s := by
    intro ops
    induction ops with
    | nil => rfl
    | cons op rest ih =>
      unfold run_ops
      rw [List.foldl_cons, hop op]
      exact ih
  refine ⟨cancelled_variant a s, ?_, hstat, rfl, hss_err, hrun, hstart_err⟩
  unfold AssignedAssessment.cancel_session cancelled_variant
  simp [hs]

theorem c10_cancelled_never_restartable_witness :
    ((agg_with base_session).session = some base_session ∧
      (agg_with base_session).status = AssignmentStatus.IN_PROGRESS) ∧
    ∃ a2, (agg_with base_session).cancel_session = .ok a2 ∧
      a2.status = AssignmentStatus.IN_PROGRESS ∧
      a2.session = some { base_session with
        status := SessionStatus.CANCELLED } ∧
      (∀ (sid : String) (now expires : ℤ) (ab : ℚ),
        a2.start_session sid now expires ab = .error .invalidState) ∧
      (∀ ops, run_ops env_fixture a2 ops = a2) ∧
      (∀ (sid rid : String) (now : ℤ),
        start_session_interactor env_fixture a2 sid rid now =
          .error (.domainError .invalidState)) :=
  ⟨⟨rfl, rfl⟩,
   c10_cancelled_never_restartable env_fixture (agg_with base_session)
     base_session rfl rfl⟩

end FlightPath
